import Mathlib

/-!
Verification development for the flockwars game server.

The definitions below are a shallow embedding, translated from the
TypeScript sources:
  - game constants and hex-grid geometry (constants.ts),
  - the game session state machine (GameManager),
  - the payment verification and escrow engine (bsvService.ts).

Modelling conventions:
  - JS numbers holding satoshi amounts and counters are Nat; values that
    the source allows to go negative or compares with negatives are Int.
  - JS Map objects are association lists with insertion-order semantics
    (set replaces in place or appends; delete removes the entry).
  - JS Set objects are duplicate-free lists in insertion order.
  - External primitives (transaction parsing, P2PKH script construction,
    signature checking, network broadcast, HMAC, address encoding) are
    supplied as explicit environment parameters: the embedding captures
    exactly how the source consumes their results.
  - setTimeout timers registered in the per-game timer maps are modelled
    as presence flags (a timer of that kind is currently scheduled).
  - Numeric expressions that the source evaluates in IEEE doubles over
    integer operands (payout split, fee estimate) are modelled in exact
    integer arithmetic with the same rounding direction.
-/

namespace Flockwars

/-! ## Constants and hex-grid geometry (constants.ts) -/

def MAX_SHEEP : Nat := 10

/-- Stake tier definition; cent amounts are exact rationals (the source
uses JS numbers such as 0.5). -/
structure StakeTierDef where
  tier : Nat
  name : String
  missCents : Rat
  hitCents : Rat
deriving DecidableEq

/-- Column lists of the 37-cell arena, by row (ARENA_COLS). Rows outside
0..6 have no entry in the source record; modelled as the empty list. -/
def ARENA_COLS (row : Int) : List Int :=
  if row = 0 then [3, 4, 5, 6]
  else if row = 1 then [2, 3, 4, 5, 6]
  else if row = 2 then [1, 2, 3, 4, 5, 6]
  else if row = 3 then [0, 1, 2, 3, 4, 5, 6]
  else if row = 4 then [1, 2, 3, 4, 5, 6]
  else if row = 5 then [2, 3, 4, 5, 6]
  else if row = 6 then [3, 4, 5, 6]
  else []

def isValidCell (row col : Int) : Bool :=
  if row < 0 || row > 6 then false
  else (ARENA_COLS row).contains col

/-- Hex neighbourhood; the even/odd split follows the source (JS
`row % 2 === 0` agrees with `row % 2 = 0` on every integer). -/
def getHexNeighbors (row col : Int) : List (Int × Int) :=
  if row % 2 = 0 then
    [(row - 1, col - 1), (row - 1, col),
     (row, col - 1), (row, col + 1),
     (row + 1, col - 1), (row + 1, col)]
  else
    [(row - 1, col), (row - 1, col + 1),
     (row, col - 1), (row, col + 1),
     (row + 1, col), (row + 1, col + 1)]

def cellKey (row col : Int) : String :=
  toString row ++ "-" ++ toString col

def HERD_SIZES : List Nat := [1, 2, 3, 4]

/-- Result shape of validateSheepPositions. -/
structure PositionsCheck where
  valid : Bool
  error : Option String
deriving DecidableEq

/-- validateSheepPositions from constants.ts: checks the count, that every
cell is on the grid, and that no cell repeats.  Note: despite the header
comment of its section in the source, it performs no connected-component
check and never consults HERD_SIZES. -/
def validateSheepPositions (positions : List (Int × Int)) : PositionsCheck :=
  if positions.length ≠ MAX_SHEEP then
    ⟨false, some ("Need " ++ toString MAX_SHEEP ++ " sheep, got " ++ toString positions.length)⟩
  else
    match positions.find? (fun p => !(isValidCell p.1 p.2)) with
    | some p => ⟨false, some ("Invalid cell: " ++ toString p.1 ++ "-" ++ toString p.2)⟩
    | none =>
      let keys := (positions.map (fun p => cellKey p.1 p.2)).foldl
        (fun acc k => if acc.contains k then acc else acc ++ [k]) []
      if keys.length ≠ positions.length then ⟨false, some "Duplicate positions"⟩
      else ⟨true, none⟩

/-! ## Herd connectivity, modelled from the spec

Modelled from the spec: the spec (and the source file header above
validateSheepPositions, together with the unused HERD_SIZES constant)
requires the placed pieces to form connected groups whose sizes are the
multiset 4, 3, 2, 1 under hex adjacency.  No such check exists anywhere
in the source; these definitions state that requirement so the divergence
can be exhibited. -/

/-- One closure round: the cells of the placement that are already in the
component or hex-adjacent to it. -/
def herdGrow (cells comp : List (Int × Int)) : List (Int × Int) :=
  cells.filter (fun c =>
    comp.contains c || (getHexNeighbors c.1 c.2).any (fun n => comp.contains n))

/-- Cells of the placement reachable from a start cell through hex
adjacency (closure reached after at most `cells.length` rounds). -/
def herdReach (cells : List (Int × Int)) (start : Int × Int) : List (Int × Int) :=
  (herdGrow cells)^[cells.length] [start]

def herdComponentsAux : Nat → List (Int × Int) → List (List (Int × Int))
  | 0, _ => []
  | _, [] => []
  | Nat.succ fuel, c :: rest =>
    let comp := herdReach (c :: rest) c
    comp :: herdComponentsAux fuel ((c :: rest).filter (fun x => !comp.contains x))

/-- Hex-adjacency connected components of a placement. -/
def herdComponents (cells : List (Int × Int)) : List (List (Int × Int)) :=
  herdComponentsAux cells.length cells

def sortNatDesc (l : List Nat) : List Nat :=
  l.insertionSort (· ≥ ·)

/-- Component sizes of a placement, largest first. -/
def specHerdGroupSizes (cells : List (Int × Int)) : List Nat :=
  sortNatDesc ((herdComponents cells).map List.length)

/-! ## Game session state machine (GameManager) -/

inductive GamePhase
  | setup
  | playing
  | paused
  | gameover
deriving DecidableEq

inductive PlayerSlot
  | player1
  | player2
deriving DecidableEq

inductive GameEndReason
  | all_sheep_sunk
  | disconnect
  | forfeit
  | timeout
  | insufficient_funds
deriving DecidableEq

/-- Value type of the shotsReceived map and of requiredTxType. -/
inductive ShotOutcome
  | hit
  | miss
deriving DecidableEq

structure PlayerState where
  socketId : String
  address : String
  username : String
  sheepPositions : List String
  sheepReady : Bool
  shotsReceived : List (String × ShotOutcome)
  sheepRemaining : Int
  shotsFired : Nat
  hits : Nat
  misses : Nat
  connected : Bool
  disconnectedAt : Option Int
deriving DecidableEq

structure PendingShot where
  shooter : PlayerSlot
  row : Int
  col : Int
  isHit : Bool
  requiredTxType : ShotOutcome
  requiredAmount : Nat
  requiredTo : String
  requiredFrom : PlayerSlot
deriving DecidableEq

structure GameState where
  id : String
  phase : GamePhase
  tier : StakeTierDef
  missSats : Nat
  hitSats : Nat
  bsvPriceAtStart : Rat
  currentTurn : PlayerSlot
  player1 : PlayerState
  player2 : PlayerState
  pot : Nat
  pausedFor : Option PlayerSlot
  pausedAt : Option Int
  pauseTimeoutMs : Nat
  pauseReason : Option String
  pendingShot : Option PendingShot
  createdAt : Int
  startedAt : Option Int
  endedAt : Option Int
  endReason : Option GameEndReason
  winner : Option PlayerSlot
  turnStartedAt : Int
  turnTimeoutMs : Nat
deriving DecidableEq

/-- Presence flags for the per-game entries of the turn and pause timer
maps of GameManager (a set flag models a scheduled setTimeout). -/
structure TimerState where
  turnTimerSet : Bool
  pauseTimerSet : Bool
deriving DecidableEq

def playerOf (g : GameState) : PlayerSlot → PlayerState
  | .player1 => g.player1
  | .player2 => g.player2

def updateSlot (g : GameState) (s : PlayerSlot) (f : PlayerState → PlayerState) : GameState :=
  match s with
  | .player1 => { g with player1 := f g.player1 }
  | .player2 => { g with player2 := f g.player2 }

def getSlot (g : GameState) (sid : String) : Option PlayerSlot :=
  if g.player1.socketId == sid then some .player1
  else if g.player2.socketId == sid then some .player2
  else none

def opponentSlot : PlayerSlot → PlayerSlot
  | .player1 => .player2
  | .player2 => .player1

/-- Association-list update with JS Map.set semantics: replace in place,
else append. -/
def mapSet {α β : Type} [DecidableEq α] : List (α × β) → α → β → List (α × β)
  | [], k, v => [(k, v)]
  | (a, b) :: rest, k, v =>
    if a = k then (k, v) :: rest else (a, b) :: mapSet rest k v

/-- Association-list removal with JS Map.delete semantics (Map keys are
unique, so removal of every entry with the key coincides with removal of
the entry). -/
def mapDelete {α β : Type} [DecidableEq α] : List (α × β) → α → List (α × β)
  | [], _ => []
  | (a, b) :: rest, k =>
    if a = k then mapDelete rest k else (a, b) :: mapDelete rest k

/-- JS `new Set(list)` : duplicate-free list in first-occurrence order. -/
def jsSetOfList (l : List String) : List String :=
  l.foldl (fun acc x => if acc.contains x then acc else acc ++ [x]) []

structure SubmitResult where
  success : Bool
  error : Option String
  bothReady : Option Bool
deriving DecidableEq

/-- GameManager.submitSheepPositions, at the level of one game.  The
`Not in a game` branch of the socket-to-game lookup is outside this
single-game embedding; `now` stands for Date.now(). -/
def submitSheepPositions (now : Int) (g : GameState) (ts : TimerState)
    (socketId : String) (positions : List (Int × Int)) :
    SubmitResult × GameState × TimerState :=
  if g.phase ≠ .setup then (⟨false, some "Not in setup", none⟩, g, ts)
  else
    match getSlot g socketId with
    | none => (⟨false, some "Not a player", none⟩, g, ts)
    | some slot =>
      let player := playerOf g slot
      if player.sheepReady then (⟨false, some "Already submitted", none⟩, g, ts)
      else
        let v := validateSheepPositions positions
        if !v.valid then (⟨false, v.error, none⟩, g, ts)
        else
          let g1 := updateSlot g slot (fun p =>
            { p with
              sheepPositions := jsSetOfList (positions.map (fun q => cellKey q.1 q.2)),
              sheepReady := true,
              sheepRemaining := (MAX_SHEEP : Int) })
          let bothReady := g1.player1.sheepReady && g1.player2.sheepReady
          if bothReady then
            (⟨true, none, some true⟩,
             { g1 with phase := .playing, startedAt := some now, turnStartedAt := now },
             { ts with turnTimerSet := true })
          else (⟨true, none, some bothReady⟩, g1, ts)

structure ShotResolution where
  row : Int
  col : Int
  result : ShotOutcome
  payer : PlayerSlot
  payerAddress : String
  payeeAddress : String
  amountSats : Nat
  defenderSheepRemaining : Int
  pot : Nat
deriving DecidableEq

structure FireShotOutcome where
  success : Bool
  error : Option String
  resolution : Option ShotResolution
deriving DecidableEq

/-- GameManager.fireShot, at the level of one game. -/
def fireShot (g : GameState) (ts : TimerState) (socketId : String)
    (row col : Int) (escrowAddress : String) :
    FireShotOutcome × GameState × TimerState :=
  if g.phase ≠ .playing then (⟨false, some "Game not active", none⟩, g, ts)
  else if g.pendingShot.isSome then
    (⟨false, some "Waiting for TX verification", none⟩, g, ts)
  else
    match getSlot g socketId with
    | none => (⟨false, some "Not a player", none⟩, g, ts)
    | some slot =>
      if g.currentTurn ≠ slot then (⟨false, some "Not your turn", none⟩, g, ts)
      else if !isValidCell row col then (⟨false, some "Invalid cell", none⟩, g, ts)
      else
        let key := cellKey row col
        let shooter := playerOf g slot
        let defSlot := opponentSlot slot
        let defender := playerOf g defSlot
        if (defender.shotsReceived.lookup key).isSome then
          (⟨false, some "Already shot there", none⟩, g, ts)
        else
          let isHit := defender.sheepPositions.contains key
          let resolution : ShotResolution :=
            if isHit then
              ⟨row, col, .hit, defSlot, defender.address, shooter.address,
               g.hitSats, defender.sheepRemaining - 1, g.pot⟩
            else
              ⟨row, col, .miss, slot, shooter.address, escrowAddress,
               g.missSats, defender.sheepRemaining, g.pot + g.missSats⟩
          let ps : PendingShot :=
            ⟨slot, row, col, isHit,
             if isHit then .hit else .miss,
             resolution.amountSats, resolution.payeeAddress, resolution.payer⟩
          (⟨true, none, some resolution⟩,
           { g with pendingShot := some ps },
           { ts with turnTimerSet := false })

structure GameOverResult where
  winner : PlayerSlot
  loser : PlayerSlot
  reason : GameEndReason
  pot : Nat
  winnerPayout : Nat
  platformCut : Nat
  winnerAddress : String
  loserAddress : String
deriving DecidableEq

/-- Clamp of the configured platform-cut percentage; `cutPctRaw` is the
value of `parseInt(PLATFORM_CUT_PERCENT or 50)`. -/
def clampCut (cutPctRaw : Int) : Int :=
  min 100 (max 0 cutPctRaw)

/-- GameManager.endGame.  The payout expression
`Math.floor(pot * (1 - cutPct / 100))` is modelled in exact arithmetic
as `pot * (100 - cutPct) / 100` with Nat floor division. -/
def endGame (now : Int) (cutPctRaw : Int) (g : GameState) (_ts : TimerState)
    (w : PlayerSlot) (reason : GameEndReason) :
    GameOverResult × GameState × TimerState :=
  let g1 := { g with
    phase := GamePhase.gameover,
    endedAt := some now,
    endReason := some reason,
    winner := some w,
    pendingShot := none }
  let loser := opponentSlot w
  let cutPct := clampCut cutPctRaw
  let winnerPayout := g.pot * (100 - cutPct).toNat / 100
  let platformCut := g.pot - winnerPayout
  (⟨w, loser, reason, g.pot, winnerPayout, platformCut,
    (playerOf g w).address, (playerOf g loser).address⟩,
   g1, ⟨false, false⟩)

structure LocalVerifyResult where
  verified : Bool
  txid : String
  amount : Nat
  error : Option String
deriving DecidableEq

structure VerifyShotOutcome where
  success : Bool
  txid : Option String
  error : Option String
  applied : Option Bool
  gameOver : Option Bool
  winner : Option (Option PlayerSlot)
deriving DecidableEq

/-- The outcome-application section of GameManager.verifyShot (the code
run once the pending shot, the submitting payer and the verification
result have all been checked). -/
def applyShot (now : Int) (cutPctRaw : Int) (g : GameState) (ts : TimerState)
    (ps : PendingShot) (res : LocalVerifyResult) :
    VerifyShotOutcome × GameState × TimerState :=
  let defSlot := opponentSlot ps.shooter
  let key := cellKey ps.row ps.col
  let g1 :=
    if ps.isHit then
      let ga := updateSlot g defSlot (fun d =>
        { d with shotsReceived := mapSet d.shotsReceived key .hit,
                 sheepRemaining := d.sheepRemaining - 1 })
      updateSlot ga ps.shooter (fun s => { s with hits := s.hits + 1 })
    else
      let ga := updateSlot g defSlot (fun d =>
        { d with shotsReceived := mapSet d.shotsReceived key .miss })
      let gb := updateSlot ga ps.shooter (fun s => { s with misses := s.misses + 1 })
      { gb with pot := gb.pot + ps.requiredAmount }
  let g2 := updateSlot g1 ps.shooter (fun s => { s with shotsFired := s.shotsFired + 1 })
  let g3 := { g2 with pendingShot := none }
  let g4 :=
    if g3.phase = .paused then
      { g3 with phase := .playing, pausedFor := none, pausedAt := none, pauseReason := none }
    else g3
  let ts4 :=
    if g3.phase = .paused then { ts with pauseTimerSet := false } else ts
  if (playerOf g4 defSlot).sheepRemaining ≤ 0 then
    let r := endGame now cutPctRaw g4 ts4 ps.shooter .all_sheep_sunk
    (⟨true, some res.txid, none, some true, some true, some (some ps.shooter)⟩,
     r.2.1, r.2.2)
  else
    (⟨true, some res.txid, none, some true, some false, some none⟩,
     { g4 with currentTurn := defSlot, turnStartedAt := now },
     { ts4 with turnTimerSet := true })

/-- GameManager.verifyShot, at the level of one game.  The awaited
verifyFn call is represented by its result `res` (the early rejections
happen before the call and do not read it). -/
def verifyShot (now : Int) (cutPctRaw : Int) (g : GameState) (ts : TimerState)
    (socketId : String) (res : LocalVerifyResult) :
    VerifyShotOutcome × GameState × TimerState :=
  match g.pendingShot with
  | none => (⟨false, none, some "No pending shot", none, none, none⟩, g, ts)
  | some ps =>
    let payerSlot := ps.requiredFrom
    if getSlot g socketId ≠ some payerSlot then
      (⟨false, none, some "Wrong player verifying", none, none, none⟩, g, ts)
    else if !res.verified then
      (⟨false, none, some (res.error.getD "TX verification failed"), none, none, none⟩, g, ts)
    else
      applyShot now cutPctRaw g ts ps res

/-! ## Payment verification engine (bsvService.ts) -/

def DUST_LIMIT : Nat := 546

structure Outpoint where
  txid : String
  vout : Nat
deriving DecidableEq

structure TxInput where
  source : Option Outpoint
deriving DecidableEq

structure TxOutput where
  lockHex : String
  satoshis : Nat
deriving DecidableEq

/-- A parsed transaction as the verifier consumes it: its id, the
locking-script hex and satoshi value of each output, and for each input
the resolved (source txid, output index) pair, or none when the input
carries neither a sourceTransaction nor a sourceTXID. -/
structure ParsedTx where
  txid : String
  outputs : List TxOutput
  inputs : List TxInput
deriving DecidableEq

def utxoKey (txid : String) (vout : Nat) : String :=
  txid ++ ":" ++ toString vout

/-- SpentUTXOTracker state: claimed maps a `txid:vout` key to the gameId
holding the claim; expiry maps the key to its expiry time. -/
structure SpentUTXOTracker where
  claimed : List (String × String)
  expiry : List (String × Int)
deriving DecidableEq

def EXPIRY_MS : Int := 10 * 60 * 1000

def pruneExpired (now : Int) (t : SpentUTXOTracker) : SpentUTXOTracker :=
  { claimed := t.claimed.filter (fun kv =>
      match t.expiry.lookup kv.1 with
      | some exp => !(decide (now > exp))
      | none => true),
    expiry := t.expiry.filter (fun ke => !(decide (now > ke.2))) }

/-- SpentUTXOTracker.claim.  The source guard is
`existingGame && existingGame !== gameId`; the empty string is falsy in
JS, hence the extra emptiness test. -/
def trackerClaim (now : Int) (txid : String) (vout : Nat) (gameId : String)
    (t : SpentUTXOTracker) : Bool × SpentUTXOTracker :=
  let key := utxoKey txid vout
  let t1 := pruneExpired now t
  match t1.claimed.lookup key with
  | some existingGame =>
    if existingGame ≠ "" ∧ existingGame ≠ gameId then (false, t1)
    else
      (true, { claimed := mapSet t1.claimed key gameId,
               expiry := mapSet t1.expiry key (now + EXPIRY_MS) })
  | none =>
    (true, { claimed := mapSet t1.claimed key gameId,
             expiry := mapSet t1.expiry key (now + EXPIRY_MS) })

def trackerRelease (txid : String) (vout : Nat) (t : SpentUTXOTracker) : SpentUTXOTracker :=
  let key := utxoKey txid vout
  { claimed := mapDelete t.claimed key, expiry := mapDelete t.expiry key }

def releaseAll (ops : List Outpoint) (t : SpentUTXOTracker) : SpentUTXOTracker :=
  ops.foldl (fun acc op => trackerRelease op.txid op.vout acc) t

/-- The used-txid replay guard: the usedTxids set and the txidTimestamps
map. -/
structure TxRegistry where
  usedTxids : List String
  txidTimestamps : List (String × Int)
deriving DecidableEq

/-- recordTxid: add to the used set, stamp the time, and every time the
timestamp map size reaches a multiple of 100 purge entries older than
one hour from both structures. -/
def recordTxid (now : Int) (txid : String) (r : TxRegistry) : TxRegistry :=
  let used := if r.usedTxids.contains txid then r.usedTxids else r.usedTxids ++ [txid]
  let stamps := mapSet r.txidTimestamps txid now
  if stamps.length % 100 = 0 then
    let cutoff := now - 3600000
    { usedTxids := used.filter (fun id =>
        match stamps.lookup id with
        | some t => !(decide (t < cutoff))
        | none => true),
      txidTimestamps := stamps.filter (fun p => !(decide (p.2 < cutoff))) }
  else { usedTxids := used, txidTimestamps := stamps }

/-- The cross-game shared mutable state of the verification engine. -/
structure WalletState where
  tracker : SpentUTXOTracker
  registry : TxRegistry
deriving DecidableEq

structure BroadcastResult where
  success : Bool
  txid : Option String
  error : Option String
deriving DecidableEq

/-- External primitives consumed by verifyAndBroadcastTx: SDK transaction
parsing, P2PKH locking-script construction, SDK signature verification
(none models the thrown-exception fall-through of the source), network
broadcast, and the current time. -/
structure VerifyEnv where
  parse : String → Option ParsedTx
  p2pkhLockHex : String → String
  sigVerify : ParsedTx → Option Bool
  broadcast : String → BroadcastResult
  now : Int

def isHexChar (c : Char) : Bool :=
  (c ≥ '0' && c ≤ '9') || (c ≥ 'a' && c ≤ 'f') || (c ≥ 'A' && c ≤ 'F')

/-- The `^[0-9a-fA-F]+$` test. -/
def isHexString (s : String) : Bool :=
  !s.isEmpty && s.toList.all isHexChar

/-- Sum of the outputs whose locking script is exactly the P2PKH script
of the expected address (step 3 of verifyAndBroadcastTx). -/
def paymentAmountOf (env : VerifyEnv) (tx : ParsedTx) (expectedTo : String) : Nat :=
  (tx.outputs.filter (fun o => o.lockHex == env.p2pkhLockHex expectedTo)).foldl
    (fun s o => s + o.satoshis) 0

/-- Step 4 of verifyAndBroadcastTx: iterate the inputs, resolving each
source outpoint and claiming it for the game.  On an error return, the
tracker keeps every claim already taken by this loop. -/
def claimInputs (now : Int) (gameId : String) :
    List TxInput → SpentUTXOTracker → List Outpoint →
    Except String (List Outpoint) × SpentUTXOTracker
  | [], t, acc => (.ok acc, t)
  | inp :: rest, t, acc =>
    match inp.source with
    | none => (.error "TX input missing source reference", t)
    | some op =>
      let c := trackerClaim now op.txid op.vout gameId t
      if c.1 then claimInputs now gameId rest c.2 (acc ++ [op])
      else
        (.error ("UTXO " ++ op.txid.take 12 ++ ":" ++ toString op.vout ++
                 " already claimed by another game"), c.2)

/-- verifyAndBroadcastTx: the seven hard gates over a raw client
transaction, threading the shared tracker and replay registry. -/
def verifyAndBroadcastTx (env : VerifyEnv) (rawTxHex expectedTo : String)
    (expectedMin : Nat) (gameId : String) (_payerAddress : String)
    (st : WalletState) : LocalVerifyResult × WalletState :=
  if rawTxHex.isEmpty then (⟨false, "", 0, some "No TX hex provided"⟩, st)
  else if !isHexString rawTxHex then (⟨false, "", 0, some "Invalid hex"⟩, st)
  else if rawTxHex.length < 100 || rawTxHex.length > 200000 then
    (⟨false, "", 0, some "TX hex size out of range"⟩, st)
  else
    match env.parse rawTxHex with
    | none => (⟨false, "", 0, some "Failed to parse TX"⟩, st)
    | some tx =>
      let txid := tx.txid
      if st.registry.usedTxids.contains txid then
        (⟨false, txid, 0, some "TXID already used (replay rejected)"⟩, st)
      else
        let paymentAmount := paymentAmountOf env tx expectedTo
        if paymentAmount < expectedMin then
          (⟨false, txid, paymentAmount,
            some ("Insufficient payment: expected " ++ toString expectedMin ++
                  " sats to " ++ expectedTo.take 12 ++ "..., found " ++
                  toString paymentAmount)⟩, st)
        else
          match claimInputs env.now gameId tx.inputs st.tracker [] with
          | (.error e, t1) => (⟨false, txid, 0, some e⟩, { st with tracker := t1 })
          | (.ok ops, t1) =>
            if env.sigVerify tx = some false then
              (⟨false, txid, 0, some "TX signature verification failed"⟩,
               { st with tracker := releaseAll ops t1 })
            else
              let b := env.broadcast rawTxHex
              if !b.success then
                (⟨false, txid, paymentAmount,
                  some ("Broadcast failed: " ++ b.error.getD "")⟩,
                 { st with tracker := releaseAll ops t1 })
              else
                let finalTxid :=
                  match b.txid with
                  | some t => if t.isEmpty then txid else t
                  | none => txid
                (⟨true, finalTxid, paymentAmount, none⟩,
                 { tracker := t1,
                   registry := recordTxid env.now finalTxid st.registry })

/-! ## Per-game escrow manager (EscrowManager) -/

structure EscrowState where
  masterSeed : String
  initialized : Bool
deriving DecidableEq

/-- External crypto primitives of the escrow manager, over an abstract
private-key type K: keyed HMAC-SHA256 producing a hex digest,
PrivateKey.fromString with base 16, and public-key address encoding for
the configured network. -/
structure EscrowEnv (K : Type) where
  hmacSha256Hex : String → String → String
  privFromHex16 : String → K
  addressOf : K → String

/-- EscrowManager.deriveGameKey: HMAC-SHA256(masterSeed, gameId)
interpreted as a private key; throws when the manager was never
initialized. -/
def deriveGameKey {K : Type} (env : EscrowEnv K) (st : EscrowState)
    (gameId : String) : Except String K :=
  if !st.initialized then .error "EscrowManager not initialized"
  else .ok (env.privFromHex16 (env.hmacSha256Hex st.masterSeed gameId))

/-- EscrowManager.getGameAddress. -/
def getGameAddress {K : Type} (env : EscrowEnv K) (st : EscrowState)
    (gameId : String) : Except String String :=
  (deriveGameKey env st gameId).map env.addressOf

/-! ## Settlement (EscrowManager.settle) -/

structure UTXO where
  txid : String
  vout : Nat
  satoshis : Nat
deriving DecidableEq

/-- The OP_RETURN settlement record embedded in the sweep transaction
(the source serializes it as JSON; the serialization is external). -/
structure SettleRecord where
  p : String
  a : String
  g : String
  e : String
  w : String
  wp : Nat
  pc : Nat
  fee : Nat
deriving DecidableEq

inductive SettleTxOutput
  | p2pkh (address : String) (satoshis : Nat)
  | opReturnData (data : SettleRecord) (satoshis : Nat)
deriving DecidableEq

structure SettleInput where
  utxo : UTXO
  sourceTxHex : String
deriving DecidableEq

/-- The sweep transaction assembled by settle before signing and
broadcast. -/
structure BuiltTx where
  inputs : List SettleInput
  outputs : List SettleTxOutput
deriving DecidableEq

/-- External collaborators of settle: the escrow crypto primitives, the
configured platform wallet, the unspent-output fetch, the source
transaction hex fetch (none models exhausted retries), and broadcast of
the assembled transaction. -/
structure SettleEnv (K : Type) where
  escrow : EscrowEnv K
  finalWallet : String
  fetchUTXOs : String → List UTXO
  fetchTxHex : String → Option String
  broadcastTx : BuiltTx → BroadcastResult

/-- Result of settle; the assembled sweep transaction is exposed as an
observable of the embedding (none when settle failed before building
it). -/
structure SettleResult where
  success : Bool
  txid : Option String
  error : Option String
  builtTx : Option BuiltTx
deriving DecidableEq

/-- The proportional re-split of the post-fee distributable amount
(`distributable * winnerShare` floored, platform taking the rest); the
0.5 share of the degenerate zero-expectation case is floor division by
two. -/
def settleSplit (distributable winnerPayout platformCut : Nat) : Nat × Nat :=
  let totalExpected := winnerPayout + platformCut
  let adjWinner :=
    if totalExpected > 0 then distributable * winnerPayout / totalExpected
    else distributable / 2
  (adjWinner, distributable - adjWinner)

/-- The per-game escrow address settle sweeps (derived key, then address
encoding). -/
def escrowAddressOf {K : Type} (env : SettleEnv K) (st : EscrowState)
    (gameId : String) : String :=
  env.escrow.addressOf (env.escrow.privFromHex16 (env.escrow.hmacSha256Hex st.masterSeed gameId))

/-- Sum of the satoshis of a UTXO list. -/
def availableOfUtxos (utxos : List UTXO) : Nat :=
  utxos.foldl (fun s u => s + u.satoshis) 0

/-- The settle fee estimate: estimatedSize = inputs * 150 + 4 * 34 + 10,
fee = max(ceil(estimatedSize * 0.15), 500), with the ceiling expression
modelled exactly as `ceil(estimatedSize * 15 / 100)`. -/
def settleFee (numInputs : Nat) : Nat :=
  max (((numInputs * 150 + 4 * 34 + 10) * 15 + 99) / 100) 500

/-- EscrowManager.settle. -/
def settle {K : Type} (env : SettleEnv K) (st : EscrowState)
    (gameId winnerAddress : String) (winnerPayout platformCut : Nat) :
    SettleResult :=
  if !st.initialized then ⟨false, none, some "EscrowManager not initialized", none⟩
  else if env.finalWallet = "" then ⟨false, none, some "FINAL_WALLET_ADDRESS not set", none⟩
  else
    let escrowAddr := escrowAddressOf env st gameId
    let utxos := env.fetchUTXOs escrowAddr
    if utxos.isEmpty then
      ⟨false, none, some ("No UTXOs at game escrow " ++ escrowAddr), none⟩
    else
      let available := availableOfUtxos utxos
      let feeEstimate := settleFee utxos.length
      let distributable : Int := (available : Int) - (feeEstimate : Int)
      if distributable < (DUST_LIMIT : Int) then
        ⟨false, none,
         some ("Escrow too low after fee: " ++ toString available ++ " - " ++
               toString feeEstimate ++ " = " ++ toString distributable), none⟩
      else
        let dN := distributable.toNat
        let split := settleSplit dN winnerPayout platformCut
        let adjWinner := split.1
        let adjPlatform := split.2
        match utxos.find? (fun u => (env.fetchTxHex u.txid).isNone) with
        | some u => ⟨false, none, some ("Failed to fetch source TX " ++ u.txid), none⟩
        | none =>
          let inputs := utxos.map (fun u =>
            SettleInput.mk u ((env.fetchTxHex u.txid).getD ""))
          let record : SettleRecord :=
            ⟨"HERDSWACKER", "SETTLE", gameId.take 8, escrowAddr.take 8,
             winnerAddress.take 8, adjWinner, adjPlatform, feeEstimate⟩
          let totalOut :=
            (if adjWinner > DUST_LIMIT then adjWinner else 0) +
            (if adjPlatform > DUST_LIMIT then adjPlatform else 0)
          let change : Int := (available : Int) - (totalOut : Int) - (feeEstimate : Int)
          let outputs :=
            (if adjWinner > DUST_LIMIT then [SettleTxOutput.p2pkh winnerAddress adjWinner] else []) ++
            (if adjPlatform > DUST_LIMIT then [SettleTxOutput.p2pkh env.finalWallet adjPlatform] else []) ++
            [SettleTxOutput.opReturnData record 0] ++
            (if change > (DUST_LIMIT : Int) then [SettleTxOutput.p2pkh escrowAddr change.toNat] else [])
          let btx : BuiltTx := ⟨inputs, outputs⟩
          let b := env.broadcastTx btx
          if b.success then ⟨true, b.txid, none, some btx⟩
          else ⟨false, none, some (b.error.getD "Settlement broadcast failed"), some btx⟩

/-! ## Theorems -/

/-- C7: every terminal transition via endGame with pot p and configured
platform-cut percentage c (clamped to 0..100; the default-50 fallback of
the environment parse is upstream of the clamp parameter) returns a
winner payout of floor(p * (1 - c/100)) — in exact arithmetic,
p * (100 - c) / 100 — and a platform cut of p minus that payout; the
phase becomes gameover, the pending shot is cleared, and the winner, end
reason and end time are fixed. -/
theorem C7_endGame_payout_split (now cutPctRaw : Int) (g : GameState)
    (ts : TimerState) (w : PlayerSlot) (reason : GameEndReason) :
    (endGame now cutPctRaw g ts w reason).1.winnerPayout =
      g.pot * (100 - clampCut cutPctRaw).toNat / 100
    ∧ 0 ≤ clampCut cutPctRaw
    ∧ clampCut cutPctRaw ≤ 100
    ∧ (endGame now cutPctRaw g ts w reason).1.platformCut =
      g.pot - (endGame now cutPctRaw g ts w reason).1.winnerPayout
    ∧ (endGame now cutPctRaw g ts w reason).2.1.phase = GamePhase.gameover
    ∧ (endGame now cutPctRaw g ts w reason).2.1.pendingShot = none
    ∧ (endGame now cutPctRaw g ts w reason).2.1.winner = some w
    ∧ (endGame now cutPctRaw g ts w reason).2.1.endReason = some reason
    ∧ (endGame now cutPctRaw g ts w reason).2.1.endedAt = some now := by
  refine ⟨rfl, ?_, ?_, rfl, rfl, rfl, rfl, rfl, rfl⟩
  · unfold clampCut
    omega
  · unfold clampCut
    omega

/-- C9: escrow key derivation is deterministic and storage-free:
deriveGameKey equals the private key obtained from
HMAC-SHA256(masterSeed, gameId), and any two calls on managers holding
the same master seed and the same game id give the same key and the same
address (the derivation reads nothing but the seed and the id). -/
theorem C9_escrow_derivation_deterministic {K : Type} (env : EscrowEnv K)
    (st st' : EscrowState) (gameId : String)
    (h : st.initialized = true) (h' : st'.initialized = true)
    (hseed : st.masterSeed = st'.masterSeed) :
    deriveGameKey env st gameId =
      Except.ok (env.privFromHex16 (env.hmacSha256Hex st.masterSeed gameId))
    ∧ getGameAddress env st gameId =
      Except.ok (env.addressOf (env.privFromHex16 (env.hmacSha256Hex st.masterSeed gameId)))
    ∧ deriveGameKey env st gameId = deriveGameKey env st' gameId
    ∧ getGameAddress env st gameId = getGameAddress env st' gameId := by
  simp [deriveGameKey, getGameAddress, h, h', hseed, Except.map]

def envC9 : EscrowEnv Nat :=
  ⟨fun s g => s ++ "|" ++ g, fun hx => hx.length, fun k => "addr" ++ toString k⟩

/-- Witness for C9 at a concrete initialized manager. -/
theorem C9_escrow_derivation_deterministic_witness :
    deriveGameKey envC9 ⟨"seed", true⟩ "game1" =
      Except.ok (envC9.privFromHex16 (envC9.hmacSha256Hex (EscrowState.mk "seed" true).masterSeed "game1"))
    ∧ getGameAddress envC9 ⟨"seed", true⟩ "game1" =
      Except.ok (envC9.addressOf (envC9.privFromHex16 (envC9.hmacSha256Hex (EscrowState.mk "seed" true).masterSeed "game1")))
    ∧ deriveGameKey envC9 ⟨"seed", true⟩ "game1" = deriveGameKey envC9 ⟨"seed", true⟩ "game1"
    ∧ getGameAddress envC9 ⟨"seed", true⟩ "game1" = getGameAddress envC9 ⟨"seed", true⟩ "game1" :=
  C9_escrow_derivation_deterministic envC9 ⟨"seed", true⟩ ⟨"seed", true⟩ "game1" rfl rfl rfl

/-- A player record exactly as createGame builds it (mkPlayer). -/
def mkTestPlayer (sid addr name : String) : PlayerState :=
  ⟨sid, addr, name, [], false, [], (MAX_SHEEP : Int), 0, 0, 0, true, none⟩

/-- A freshly created game in the setup phase. -/
def gSetup : GameState :=
  { id := "game-c1", phase := .setup, tier := ⟨1, "Penny", 1/2, 1⟩,
    missSats := 100, hitSats := 200, bsvPriceAtStart := 50,
    currentTurn := .player1,
    player1 := mkTestPlayer "s1" "addr1" "alice",
    player2 := mkTestPlayer "s2" "addr2" "bob",
    pot := 0, pausedFor := none, pausedAt := none, pauseTimeoutMs := 60000,
    pauseReason := none, pendingShot := none, createdAt := 0, startedAt := none,
    endedAt := none, endReason := none, winner := none, turnStartedAt := 0,
    turnTimeoutMs := 90000 }

/-- Ten distinct on-grid cells forming two hex-connected groups of sizes
6 and 4 — not the required multiset 4, 3, 2, 1. -/
def badPlacement : List (Int × Int) :=
  [(2, 1), (2, 2), (2, 3), (2, 4), (2, 5), (2, 6), (4, 1), (4, 2), (4, 3), (4, 4)]

/-- C1: the claim (and the spec, and the header comment of the herd
validation section of the source) requires submitted placements to form
connected groups whose sizes are exactly the multiset 4, 3, 2, 1, with
offending placements rejected and no state change.  The code omits that
check: validateSheepPositions never consults HERD_SIZES or the hex
adjacency, so submitSheepPositions accepts this placement whose group
sizes are 6 and 4, stores it and marks the player ready. -/
theorem C1_herd_validation_missing :
    (submitSheepPositions 0 gSetup ⟨false, false⟩ "s1" badPlacement).1.success = true
    ∧ (submitSheepPositions 0 gSetup ⟨false, false⟩ "s1" badPlacement).2.1.player1.sheepReady = true
    ∧ (validateSheepPositions badPlacement).valid = true
    ∧ specHerdGroupSizes badPlacement = [6, 4]
    ∧ specHerdGroupSizes badPlacement ≠ [4, 3, 2, 1] := by
  decide

/-- Projection of the OP_RETURN settlement records of a built sweep
transaction. -/
def opRecOf : SettleTxOutput → Option SettleRecord
  | .opReturnData r _ => some r
  | .p2pkh _ _ => none

def opReturnRecords (btx : BuiltTx) : List SettleRecord :=
  btx.outputs.filterMap opRecOf

theorem filterMap_opRecOf_ite (c : Prop) [Decidable c] (a : String) (n : Nat) :
    List.filterMap opRecOf (if c then [SettleTxOutput.p2pkh a n] else []) = [] := by
  split <;> simp [opRecOf]

theorem settleSplit_sum (d wp pc : Nat) :
    (settleSplit d wp pc).1 + (settleSplit d wp pc).2 = d := by
  unfold settleSplit
  simp only
  have h : (if wp + pc > 0 then d * wp / (wp + pc) else d / 2) ≤ d := by
    split
    · calc d * wp / (wp + pc) ≤ d * (wp + pc) / (wp + pc) :=
            Nat.div_le_div_right (Nat.mul_le_mul_left d (Nat.le_add_right wp pc))
        _ = d := Nat.mul_div_cancel d (by omega)
    · exact Nat.div_le_self d 2
  omega

/-- C10: conservation of funds in both splits.  First, every endGame
call returns winnerPayout + platformCut = pot exactly.  Second, in every
successful settle computation the adjusted winner amount plus the
adjusted platform amount (as embedded in the OP_RETURN settlement
record of the built sweep transaction) equals exactly the available
escrow funds minus the estimated fee. -/
theorem C10_conservation :
    (∀ (now cutPctRaw : Int) (g : GameState) (ts : TimerState)
       (w : PlayerSlot) (reason : GameEndReason),
      (endGame now cutPctRaw g ts w reason).1.winnerPayout +
        (endGame now cutPctRaw g ts w reason).1.platformCut = g.pot)
    ∧ (∀ (K : Type) (env : SettleEnv K) (st : EscrowState)
       (gameId winnerAddress : String) (wp pc : Nat) (btx : BuiltTx)
       (r : SettleRecord),
      (settle env st gameId winnerAddress wp pc).success = true →
      (settle env st gameId winnerAddress wp pc).builtTx = some btx →
      r ∈ opReturnRecords btx →
      (r.wp : Int) + (r.pc : Int) =
        (availableOfUtxos (env.fetchUTXOs (escrowAddressOf env st gameId)) : Int) -
          (r.fee : Int)) := by
  constructor
  · intro now cutPctRaw g ts w reason
    have hk : (100 - clampCut cutPctRaw).toNat ≤ 100 := by
      unfold clampCut
      omega
    have h : g.pot * (100 - clampCut cutPctRaw).toNat / 100 ≤ g.pot := by
      calc g.pot * (100 - clampCut cutPctRaw).toNat / 100
          ≤ g.pot * 100 / 100 :=
            Nat.div_le_div_right (Nat.mul_le_mul_left g.pot hk)
        _ = g.pot := Nat.mul_div_cancel g.pot (by omega)
    show g.pot * (100 - clampCut cutPctRaw).toNat / 100 +
      (g.pot - g.pot * (100 - clampCut cutPctRaw).toNat / 100) = g.pot
    omega
  · intro K env st gameId winnerAddress wp pc btx r _hs hb hr
    simp only [settle] at hb
    split at hb
    · simp at hb
    · split at hb
      · simp at hb
      · split at hb
        · simp at hb
        · split at hb
          · simp at hb
          · split at hb
            · simp at hb
            · repeat' split at hb
              all_goals
                simp only [Option.some.injEq] at hb
              all_goals
                subst hb
              all_goals
                simp only [opReturnRecords, List.filterMap_append,
                  List.singleton_append, List.filterMap_cons,
                  filterMap_opRecOf_ite, opRecOf, List.filterMap_nil,
                  List.nil_append, List.append_nil, List.mem_append,
                  List.mem_cons, List.not_mem_nil, false_or, or_false] at hr
              all_goals
                subst hr
              all_goals
                have hsum := settleSplit_sum
                  (availableOfUtxos (env.fetchUTXOs (escrowAddressOf env st gameId)) -
                    settleFee (env.fetchUTXOs (escrowAddressOf env st gameId)).length)
                  wp pc
                have hsum' := settleSplit_sum
                  ((availableOfUtxos (env.fetchUTXOs (escrowAddressOf env st gameId)) : Int) -
                    (settleFee (env.fetchUTXOs (escrowAddressOf env st gameId)).length : Int)).toNat
                  wp pc
                simp only [SettleRecord.wp, SettleRecord.pc, SettleRecord.fee]
                omega

def envC10 : SettleEnv Nat :=
  { escrow := ⟨fun _ _ => "k", fun _ => 7, fun _ => "escrowAddr"⟩,
    finalWallet := "platformAddr",
    fetchUTXOs := fun a => if a = "escrowAddr" then [⟨"u1", 0, 100000⟩] else [],
    fetchTxHex := fun _ => some "aa",
    broadcastTx := fun _ => ⟨true, some "txid1", none⟩ }

def btxC10 : BuiltTx :=
  ⟨[⟨⟨"u1", 0, 100000⟩, "aa"⟩],
   [SettleTxOutput.p2pkh "winnerAddr" 49750,
    SettleTxOutput.p2pkh "platformAddr" 49750,
    SettleTxOutput.opReturnData
      ⟨"HERDSWACKER", "SETTLE", "g1", "escrowAd", "winnerAd", 49750, 49750, 500⟩ 0]⟩

def recC10 : SettleRecord :=
  ⟨"HERDSWACKER", "SETTLE", "g1", "escrowAd", "winnerAd", 49750, 49750, 500⟩

/-- Witness for C10 on a concrete successful settlement. -/
theorem C10_conservation_witness :
    (recC10.wp : Int) + (recC10.pc : Int) =
      (availableOfUtxos (envC10.fetchUTXOs (escrowAddressOf envC10 ⟨"seed", true⟩ "g1")) : Int) -
        (recC10.fee : Int) :=
  C10_conservation.2 Nat envC10 ⟨"seed", true⟩ "g1" "winnerAddr" 50 50 btxC10 recC10
    (by decide) (by decide) (by decide)

theorem mem_ite_singleton {α : Type} {c : Prop} [Decidable c] {x y : α}
    (h : x ∈ (if c then [y] else [])) : x = y ∧ c := by
  by_cases hc : c
  · rw [if_pos hc] at h
    exact ⟨List.mem_singleton.mp h, hc⟩
  · rw [if_neg hc] at h
    simp at h

/-- C8: settle fails when the escrow address has no unspent outputs;
fails when the available funds minus the estimated fee fall below the
dust threshold; otherwise (all source fetches succeeding) it builds the
sweep transaction, re-splitting the post-fee distributable amount in the
ratio intendedWinnerShare : intendedPlatformShare — winner share rounded
down, platform taking the rest — and the winner and platform outputs
each appear exactly when the adjusted amount exceeds the dust
threshold (every payment output of the built transaction exceeds it). -/
theorem C8_settle_behavior {K : Type} (env : SettleEnv K) (st : EscrowState)
    (gameId winnerAddress : String) (wp pc : Nat)
    (hinit : st.initialized = true) (hwallet : env.finalWallet ≠ "") :
    (env.fetchUTXOs (escrowAddressOf env st gameId) = [] →
      (settle env st gameId winnerAddress wp pc).success = false)
    ∧ (¬ env.fetchUTXOs (escrowAddressOf env st gameId) = [] →
       (availableOfUtxos (env.fetchUTXOs (escrowAddressOf env st gameId)) : Int) -
         (settleFee (env.fetchUTXOs (escrowAddressOf env st gameId)).length : Int) <
         (DUST_LIMIT : Int) →
      (settle env st gameId winnerAddress wp pc).success = false)
    ∧ (¬ env.fetchUTXOs (escrowAddressOf env st gameId) = [] →
       ¬ ((availableOfUtxos (env.fetchUTXOs (escrowAddressOf env st gameId)) : Int) -
         (settleFee (env.fetchUTXOs (escrowAddressOf env st gameId)).length : Int) <
         (DUST_LIMIT : Int)) →
       (∀ u ∈ env.fetchUTXOs (escrowAddressOf env st gameId),
         (env.fetchTxHex u.txid).isSome = true) →
       0 < wp + pc →
       ∃ btx, (settle env st gameId winnerAddress wp pc).builtTx = some btx
         ∧ (((availableOfUtxos (env.fetchUTXOs (escrowAddressOf env st gameId)) : Int) -
              (settleFee (env.fetchUTXOs (escrowAddressOf env st gameId)).length : Int)).toNat *
              wp / (wp + pc) > DUST_LIMIT →
            SettleTxOutput.p2pkh winnerAddress
              (((availableOfUtxos (env.fetchUTXOs (escrowAddressOf env st gameId)) : Int) -
                 (settleFee (env.fetchUTXOs (escrowAddressOf env st gameId)).length : Int)).toNat *
                 wp / (wp + pc)) ∈ btx.outputs)
         ∧ (((availableOfUtxos (env.fetchUTXOs (escrowAddressOf env st gameId)) : Int) -
              (settleFee (env.fetchUTXOs (escrowAddressOf env st gameId)).length : Int)).toNat -
              ((availableOfUtxos (env.fetchUTXOs (escrowAddressOf env st gameId)) : Int) -
                 (settleFee (env.fetchUTXOs (escrowAddressOf env st gameId)).length : Int)).toNat *
                 wp / (wp + pc) > DUST_LIMIT →
            SettleTxOutput.p2pkh env.finalWallet
              (((availableOfUtxos (env.fetchUTXOs (escrowAddressOf env st gameId)) : Int) -
                 (settleFee (env.fetchUTXOs (escrowAddressOf env st gameId)).length : Int)).toNat -
               ((availableOfUtxos (env.fetchUTXOs (escrowAddressOf env st gameId)) : Int) -
                  (settleFee (env.fetchUTXOs (escrowAddressOf env st gameId)).length : Int)).toNat *
                  wp / (wp + pc)) ∈ btx.outputs)
         ∧ (∀ a n, SettleTxOutput.p2pkh a n ∈ btx.outputs → n > DUST_LIMIT)) := by
  refine ⟨?_, ?_, ?_⟩
  · intro h
    simp only [settle]
    repeat' split
    all_goals first
      | rfl
      | (exfalso; simp_all)
  · intro hne hdust
    simp only [settle]
    repeat' split
    all_goals rfl
  · intro hne hdust hfetch hpos
    have hne' : (env.fetchUTXOs (escrowAddressOf env st gameId)).isEmpty = false := by
      cases hu : env.fetchUTXOs (escrowAddressOf env st gameId) with
      | nil => exact absurd hu hne
      | cons a l => rfl
    have hfind : (env.fetchUTXOs (escrowAddressOf env st gameId)).find?
        (fun u => (env.fetchTxHex u.txid).isNone) = none := by
      rw [List.find?_eq_none]
      intro u hu hP
      have hS := hfetch u hu
      cases henv : env.fetchTxHex u.txid <;> simp_all
    have hsplit : ∀ X : Nat, settleSplit X wp pc =
        (X * wp / (wp + pc), X - X * wp / (wp + pc)) := by
      intro X
      simp [settleSplit, hpos]
    simp only [settle, hinit, hwallet, hne', hdust, hfind, Bool.not_true,
      Bool.false_eq_true, if_false, hsplit, apply_ite SettleResult.builtTx,
      ite_self]
    refine ⟨_, rfl, ?_, ?_, ?_⟩
    all_goals first
      | (intro ha
         rw [if_pos ha]
         simp [List.mem_append])
      | (intro a n hmem
         simp only [List.append_assoc] at hmem
         rcases List.mem_append.mp hmem with h1 | hrest
         · obtain ⟨heq, hc⟩ := mem_ite_singleton h1
           simp only [SettleTxOutput.p2pkh.injEq] at heq
           obtain ⟨rfl, rfl⟩ := heq
           exact hc
         · rcases List.mem_append.mp hrest with h2 | hrest2
           · obtain ⟨heq, hc⟩ := mem_ite_singleton h2
             simp only [SettleTxOutput.p2pkh.injEq] at heq
             obtain ⟨rfl, rfl⟩ := heq
             exact hc
           · rcases List.mem_append.mp hrest2 with h3 | h4
             · simp at h3
             · obtain ⟨heq, hc⟩ := mem_ite_singleton h4
               simp only [SettleTxOutput.p2pkh.injEq] at heq
               obtain ⟨rfl, rfl⟩ := heq
               omega)

def envC8 : SettleEnv Nat :=
  { escrow := ⟨fun _ _ => "k8", fun _ => 8, fun _ => "escrowAddr8"⟩,
    finalWallet := "platformAddr",
    fetchUTXOs := fun a => if a = "escrowAddr8" then [⟨"u8", 0, 100000⟩] else [],
    fetchTxHex := fun _ => some "bb",
    broadcastTx := fun _ => ⟨true, some "txid8", none⟩ }

/-- Witness for C8 on a concrete settle call that reaches the build. -/
theorem C8_settle_behavior_witness :
    (settle envC8 ⟨"seed", true⟩ "g1" "winnerAddr" 50 50).builtTx.isSome = true := by
  obtain ⟨btx, h1, -, -, -⟩ :=
    (C8_settle_behavior envC8 ⟨"seed", true⟩ "g1" "winnerAddr" 50 50 rfl (by decide)).2.2
      (by decide) (by decide) (by decide) (by decide)
  rw [h1]
  rfl

theorem lookup_mapSet_self {α β : Type} [DecidableEq α] (m : List (α × β)) (k : α) (v : β) :
    (mapSet m k v).lookup k = some v := by
  induction m with
  | nil => simp [mapSet, List.lookup]
  | cons p rest ih =>
    cases p with
    | mk a b =>
      by_cases hak : a = k
      · subst hak
        simp [mapSet, List.lookup]
      · have hka : ¬ k = a := fun hh => hak hh.symm
        have hbeq : (k == a) = false := by simp [hka]
        simp [mapSet, List.lookup, hak, hbeq, ih]

/-- C6: a fireShot call by a player who does not hold the turn, or at a
cell the same firer has already targeted, or while a PendingShot exists,
or while the phase is not playing, returns failure with an error and
leaves the game state and the timers unchanged. -/
theorem C6_fireShot_rejection_no_mutation (g : GameState) (ts : TimerState)
    (sid : String) (row col : Int) (escrowAddress : String)
    (h : g.phase ≠ GamePhase.playing
       ∨ g.pendingShot ≠ none
       ∨ (∃ s, getSlot g sid = some s ∧ g.currentTurn ≠ s)
       ∨ (∃ s, getSlot g sid = some s ∧ g.currentTurn = s ∧
           ((playerOf g (opponentSlot s)).shotsReceived.lookup (cellKey row col)).isSome = true)) :
    (fireShot g ts sid row col escrowAddress).1.success = false
    ∧ (fireShot g ts sid row col escrowAddress).1.error.isSome = true
    ∧ (fireShot g ts sid row col escrowAddress).2.1 = g
    ∧ (fireShot g ts sid row col escrowAddress).2.2 = ts := by
  by_cases h1 : g.phase = GamePhase.playing
  · cases hps : g.pendingShot with
    | some p => simp [fireShot, h1, hps]
    | none =>
      cases hs : getSlot g sid with
      | none => simp [fireShot, h1, hps, hs]
      | some slot =>
        by_cases hturn : g.currentTurn = slot
        · by_cases hvc : isValidCell row col = true
          · by_cases hlook :
              ((playerOf g (opponentSlot slot)).shotsReceived.lookup (cellKey row col)).isSome = true
            · simp [fireShot, h1, hps, hs, hturn, hvc, hlook]
            · exfalso
              rcases h with h | h | ⟨s, hs2, h⟩ | ⟨s, hs2, _, h⟩
              · exact h h1
              · exact h hps
              · rw [hs] at hs2
                cases hs2
                exact h hturn
              · rw [hs] at hs2
                cases hs2
                exact hlook h
          · simp [fireShot, h1, hps, hs, hturn, hvc]
        · simp [fireShot, h1, hps, hs, hturn]
  · simp [fireShot, h1]

/-- C5: a valid fireShot resolves by membership of the cell in the
defender's hidden set: occupied means hit with the defender paying the
locked hitSats to the shooter's address, unoccupied means miss with the
firer paying the locked missSats to the escrow address; the installed
PendingShot records the same payer, payee and amount. -/
theorem C5_fireShot_resolution (g : GameState) (ts : TimerState)
    (sid : String) (row col : Int) (escrowAddress : String) (slot : PlayerSlot)
    (hphase : g.phase = GamePhase.playing)
    (hps : g.pendingShot = none)
    (hslot : getSlot g sid = some slot)
    (hturn : g.currentTurn = slot)
    (hcell : isValidCell row col = true)
    (hnew : ((playerOf g (opponentSlot slot)).shotsReceived.lookup (cellKey row col)).isSome = false) :
    ∃ r, (fireShot g ts sid row col escrowAddress).1.success = true
      ∧ (fireShot g ts sid row col escrowAddress).1.resolution = some r
      ∧ (if (playerOf g (opponentSlot slot)).sheepPositions.contains (cellKey row col) = true then
           r.result = ShotOutcome.hit
           ∧ r.payer = opponentSlot slot
           ∧ r.payerAddress = (playerOf g (opponentSlot slot)).address
           ∧ r.payeeAddress = (playerOf g slot).address
           ∧ r.amountSats = g.hitSats
         else
           r.result = ShotOutcome.miss
           ∧ r.payer = slot
           ∧ r.payerAddress = (playerOf g slot).address
           ∧ r.payeeAddress = escrowAddress
           ∧ r.amountSats = g.missSats)
      ∧ (∃ ps, (fireShot g ts sid row col escrowAddress).2.1.pendingShot = some ps
          ∧ ps.requiredFrom = r.payer
          ∧ ps.requiredTo = r.payeeAddress
          ∧ ps.requiredAmount = r.amountSats) := by
  by_cases hcontains :
      (playerOf g (opponentSlot slot)).sheepPositions.contains (cellKey row col) = true
  · simp only [List.contains, List.elem_eq_mem, decide_eq_true_eq] at hcontains
    refine ⟨⟨row, col, .hit, opponentSlot slot, (playerOf g (opponentSlot slot)).address,
      (playerOf g slot).address, g.hitSats, (playerOf g (opponentSlot slot)).sheepRemaining - 1,
      g.pot⟩, ?_⟩
    simp [fireShot, hphase, hps, hslot, hturn, hcell, hnew, hcontains]
  · simp only [List.contains, List.elem_eq_mem, decide_eq_true_eq] at hcontains
    refine ⟨⟨row, col, .miss, slot, (playerOf g slot).address,
      escrowAddress, g.missSats, (playerOf g (opponentSlot slot)).sheepRemaining,
      g.pot + g.missSats⟩, ?_⟩
    simp [fireShot, hphase, hps, hslot, hturn, hcell, hnew, hcontains]

theorem endGame_snd_player2 (now cutPctRaw : Int) (g : GameState) (ts : TimerState)
    (w : PlayerSlot) (r : GameEndReason) :
    (endGame now cutPctRaw g ts w r).2.1.player2 = g.player2 := rfl

theorem endGame_snd_player1 (now cutPctRaw : Int) (g : GameState) (ts : TimerState)
    (w : PlayerSlot) (r : GameEndReason) :
    (endGame now cutPctRaw g ts w r).2.1.player1 = g.player1 := rfl

theorem endGame_snd_phase (now cutPctRaw : Int) (g : GameState) (ts : TimerState)
    (w : PlayerSlot) (r : GameEndReason) :
    (endGame now cutPctRaw g ts w r).2.1.phase = GamePhase.gameover := rfl

theorem endGame_snd_winner (now cutPctRaw : Int) (g : GameState) (ts : TimerState)
    (w : PlayerSlot) (r : GameEndReason) :
    (endGame now cutPctRaw g ts w r).2.1.winner = some w := rfl

theorem endGame_snd_endReason (now cutPctRaw : Int) (g : GameState) (ts : TimerState)
    (w : PlayerSlot) (r : GameEndReason) :
    (endGame now cutPctRaw g ts w r).2.1.endReason = some r := rfl

theorem endGame_snd_pendingShot (now cutPctRaw : Int) (g : GameState) (ts : TimerState)
    (w : PlayerSlot) (r : GameEndReason) :
    (endGame now cutPctRaw g ts w r).2.1.pendingShot = none := rfl

theorem endGame_snd_pot (now cutPctRaw : Int) (g : GameState) (ts : TimerState)
    (w : PlayerSlot) (r : GameEndReason) :
    (endGame now cutPctRaw g ts w r).2.1.pot = g.pot := rfl

/-- C4: when verifyShot is called by the required payer of the pending
shot and the verification function reports success, the outcome is
applied exactly: the shot cell is recorded against the defender as hit
or miss, shotsFired and the hit or miss counter increment, a miss adds
the required amount to the pot, the pending shot is cleared; if the
defender has no pieces left the game ends with the shooter as winner and
reason all_sheep_sunk, otherwise the turn switches to the defender and
the turn timer restarts. -/
theorem C4_verifyShot_applies_outcome (now cutPctRaw : Int) (g : GameState)
    (ts : TimerState) (sid : String) (res : LocalVerifyResult) (ps : PendingShot)
    (hps : g.pendingShot = some ps)
    (hslot : getSlot g sid = some ps.requiredFrom)
    (hv : res.verified = true) :
    ((verifyShot now cutPctRaw g ts sid res).1.success = true)
    ∧ ((playerOf (verifyShot now cutPctRaw g ts sid res).2.1 (opponentSlot ps.shooter)).shotsReceived.lookup
         (cellKey ps.row ps.col)
        = some (if ps.isHit then ShotOutcome.hit else ShotOutcome.miss))
    ∧ ((playerOf (verifyShot now cutPctRaw g ts sid res).2.1 ps.shooter).shotsFired
        = (playerOf g ps.shooter).shotsFired + 1)
    ∧ (ps.isHit = true →
        (playerOf (verifyShot now cutPctRaw g ts sid res).2.1 ps.shooter).hits
          = (playerOf g ps.shooter).hits + 1
        ∧ (playerOf (verifyShot now cutPctRaw g ts sid res).2.1 (opponentSlot ps.shooter)).sheepRemaining
          = (playerOf g (opponentSlot ps.shooter)).sheepRemaining - 1
        ∧ (verifyShot now cutPctRaw g ts sid res).2.1.pot = g.pot)
    ∧ (ps.isHit = false →
        (playerOf (verifyShot now cutPctRaw g ts sid res).2.1 ps.shooter).misses
          = (playerOf g ps.shooter).misses + 1
        ∧ (verifyShot now cutPctRaw g ts sid res).2.1.pot = g.pot + ps.requiredAmount
        ∧ (playerOf (verifyShot now cutPctRaw g ts sid res).2.1 (opponentSlot ps.shooter)).sheepRemaining
          = (playerOf g (opponentSlot ps.shooter)).sheepRemaining)
    ∧ ((verifyShot now cutPctRaw g ts sid res).2.1.pendingShot = none)
    ∧ ((playerOf (verifyShot now cutPctRaw g ts sid res).2.1 (opponentSlot ps.shooter)).sheepRemaining ≤ 0 →
        (verifyShot now cutPctRaw g ts sid res).2.1.phase = GamePhase.gameover
        ∧ (verifyShot now cutPctRaw g ts sid res).2.1.winner = some ps.shooter
        ∧ (verifyShot now cutPctRaw g ts sid res).2.1.endReason = some GameEndReason.all_sheep_sunk
        ∧ (verifyShot now cutPctRaw g ts sid res).1.gameOver = some true)
    ∧ (¬ (playerOf (verifyShot now cutPctRaw g ts sid res).2.1 (opponentSlot ps.shooter)).sheepRemaining ≤ 0 →
        (verifyShot now cutPctRaw g ts sid res).2.1.currentTurn = opponentSlot ps.shooter
        ∧ (verifyShot now cutPctRaw g ts sid res).2.1.turnStartedAt = now
        ∧ (verifyShot now cutPctRaw g ts sid res).2.2.turnTimerSet = true
        ∧ (verifyShot now cutPctRaw g ts sid res).1.gameOver = some false) := by
  obtain ⟨sh, prow, pcol, ihit, rtt, ramt, rto, rfm⟩ := ps
  have hV : verifyShot now cutPctRaw g ts sid res =
      applyShot now cutPctRaw g ts ⟨sh, prow, pcol, ihit, rtt, ramt, rto, rfm⟩ res := by
    simp only [verifyShot, hps]
    rw [if_neg (by simp [hslot]), if_neg (by simp [hv])]
  rw [hV]
  cases sh <;> cases ihit <;>
    (simp only [applyShot, updateSlot, playerOf, opponentSlot, endGame_snd_player1,
       endGame_snd_player2, endGame_snd_phase, endGame_snd_winner,
       endGame_snd_endReason, endGame_snd_pendingShot, endGame_snd_pot]
     split_ifs <;>
       first
         | exact Bool.noConfusion (by assumption : false = true)
         | exact False.elim (by assumption)
         | (refine ⟨rfl, ?_, rfl, ?_, ?_, rfl, ?_, ?_⟩ <;>
            first
              | exact lookup_mapSet_self _ _ _
              | exact False.elim (by assumption)
              | (intro hh; exact ⟨rfl, rfl, rfl⟩)
              | (intro hh; exact ⟨rfl, rfl, rfl, rfl⟩)
              | (intro hh; exact absurd (by assumption) hh)
              | (intro hh; exact absurd hh (by assumption))
              | simp))

def psC4 : PendingShot :=
  ⟨.player1, 3, 3, false, .miss, 100, "escrowX", .player1⟩

def gC4 : GameState :=
  { id := "game-c4", phase := .playing, tier := ⟨1, "Penny", 1/2, 1⟩,
    missSats := 100, hitSats := 200, bsvPriceAtStart := 50,
    currentTurn := .player1,
    player1 := mkTestPlayer "s1" "addr1" "alice",
    player2 := mkTestPlayer "s2" "addr2" "bob",
    pot := 7, pausedFor := none, pausedAt := none, pauseTimeoutMs := 60000,
    pauseReason := none, pendingShot := some psC4, createdAt := 0, startedAt := some 1,
    endedAt := none, endReason := none, winner := none, turnStartedAt := 1,
    turnTimeoutMs := 90000 }

/-- Witness for C4: a verified miss is applied, adding the required
amount to the pot. -/
theorem C4_verifyShot_applies_outcome_witness :
    (verifyShot 5 50 gC4 ⟨false, false⟩ "s1" ⟨true, "tx", 100, none⟩).1.success = true
    ∧ (verifyShot 5 50 gC4 ⟨false, false⟩ "s1" ⟨true, "tx", 100, none⟩).2.1.pot = gC4.pot + 100 := by
  have h := C4_verifyShot_applies_outcome 5 50 gC4 ⟨false, false⟩ "s1"
    ⟨true, "tx", 100, none⟩ psC4 rfl rfl rfl
  exact ⟨h.1, (h.2.2.2.2.1 rfl).2.1⟩

def gC5 : GameState :=
  { id := "game-c5", phase := .playing, tier := ⟨1, "Penny", 1/2, 1⟩,
    missSats := 100, hitSats := 200, bsvPriceAtStart := 50,
    currentTurn := .player1,
    player1 := mkTestPlayer "s1" "addr1" "alice",
    player2 := { mkTestPlayer "s2" "addr2" "bob" with sheepPositions := ["3-3"] },
    pot := 0, pausedFor := none, pausedAt := none, pauseTimeoutMs := 60000,
    pauseReason := none, pendingShot := none, createdAt := 0, startedAt := some 1,
    endedAt := none, endReason := none, winner := none, turnStartedAt := 1,
    turnTimeoutMs := 90000 }

/-- Witness for C5: a valid shot at an occupied cell succeeds. -/
theorem C5_fireShot_resolution_witness :
    (fireShot gC5 ⟨true, false⟩ "s1" 3 3 "escrowE").1.success = true := by
  obtain ⟨r, h1, -⟩ := C5_fireShot_resolution gC5 ⟨true, false⟩ "s1" 3 3 "escrowE"
    .player1 rfl rfl rfl rfl (by decide) (by decide)
  exact h1

/-- Witness for C6: an off-turn fireShot call is rejected with no state
change. -/
theorem C6_fireShot_rejection_no_mutation_witness :
    (fireShot gC5 ⟨true, false⟩ "s2" 3 3 "escrowE").1.success = false
    ∧ (fireShot gC5 ⟨true, false⟩ "s2" 3 3 "escrowE").1.error.isSome = true
    ∧ (fireShot gC5 ⟨true, false⟩ "s2" 3 3 "escrowE").2.1 = gC5
    ∧ (fireShot gC5 ⟨true, false⟩ "s2" 3 3 "escrowE").2.2 = ⟨true, false⟩ :=
  C6_fireShot_rejection_no_mutation gC5 ⟨true, false⟩ "s2" 3 3 "escrowE"
    (Or.inr (Or.inr (Or.inl ⟨.player2, rfl, by decide⟩)))

/-- C2 amended: while a transaction id is still present in the used-txid
set, any call whose raw hex parses to a transaction with that id is
rejected as a replay, with no state change, whatever the game id.  (The
unconditional form of the claim fails: recordTxid prunes entries older
than one hour whenever an insertion brings the timestamp map to a
multiple of one hundred entries, after which the id can be accepted
again — see the counterexample.) -/
theorem C2_replay_guard_while_recorded (env : VerifyEnv) (rawTxHex expectedTo : String)
    (expectedMin : Nat) (gameId payerAddress : String) (st : WalletState) (tx : ParsedTx)
    (hhex : isHexString rawTxHex = true)
    (hlen : 100 ≤ rawTxHex.length ∧ rawTxHex.length ≤ 200000)
    (hparse : env.parse rawTxHex = some tx)
    (hused : st.registry.usedTxids.contains tx.txid = true) :
    (verifyAndBroadcastTx env rawTxHex expectedTo expectedMin gameId payerAddress st).1.verified = false
    ∧ (verifyAndBroadcastTx env rawTxHex expectedTo expectedMin gameId payerAddress st).1.error
        = some "TXID already used (replay rejected)"
    ∧ (verifyAndBroadcastTx env rawTxHex expectedTo expectedMin gameId payerAddress st).2 = st := by
  have hempty : rawTxHex.isEmpty = false := by
    cases he : rawTxHex.isEmpty
    · rfl
    · exfalso
      unfold isHexString at hhex
      rw [he] at hhex
      simp at hhex
  have hlenc : (decide (rawTxHex.length < 100) || decide (rawTxHex.length > 200000)) = false := by
    simp only [Bool.or_eq_false_iff, decide_eq_false_iff_not]
    omega
  simp only [verifyAndBroadcastTx, hempty, hhex, hlenc, hparse, hused, Bool.not_true,
    Bool.false_eq_true, if_false, ite_true, if_true]
  exact ⟨trivial, trivial, trivial⟩

def hexC2 : String := String.mk (List.replicate 100 'a')

def txC2 : ParsedTx := ⟨"aa11", [⟨"Lescrow", 500⟩], [⟨some ⟨"src1", 0⟩⟩]⟩

def envC2 (t : Int) : VerifyEnv :=
  { parse := fun s => if s = hexC2 then some txC2 else none,
    p2pkhLockHex := fun a => "L" ++ a,
    sigVerify := fun _ => some true,
    broadcast := fun _ => ⟨true, some "aa11", none⟩,
    now := t }

/-- Witness for the amended C2 on a concrete state that still holds the
recorded id. -/
theorem C2_replay_guard_while_recorded_witness :
    (verifyAndBroadcastTx (envC2 0) hexC2 "escrow" 100 "game2" "payer"
       ⟨⟨[], []⟩, ⟨["aa11"], [("aa11", 0)]⟩⟩).1.verified = false
    ∧ (verifyAndBroadcastTx (envC2 0) hexC2 "escrow" 100 "game2" "payer"
       ⟨⟨[], []⟩, ⟨["aa11"], [("aa11", 0)]⟩⟩).1.error
        = some "TXID already used (replay rejected)"
    ∧ (verifyAndBroadcastTx (envC2 0) hexC2 "escrow" 100 "game2" "payer"
       ⟨⟨[], []⟩, ⟨["aa11"], [("aa11", 0)]⟩⟩).2
        = ⟨⟨[], []⟩, ⟨["aa11"], [("aa11", 0)]⟩⟩ :=
  C2_replay_guard_while_recorded (envC2 0) hexC2 "escrow" 100 "game2" "payer"
    ⟨⟨[], []⟩, ⟨["aa11"], [("aa11", 0)]⟩⟩ txC2
    (by decide) (by decide) rfl (by decide)

def idsC2 : List String := (List.range 99).map (fun n => "b" ++ toString n)

set_option maxRecDepth 100000 in
/-- C2 counterexample: transaction id aa11 is verified, broadcast and
recorded at time 0; ninety-nine further ids are recorded just after one
hour, and the hundredth insertion triggers the prune that drops aa11
from the used set; a later call carrying a transaction with the very
same id aa11 is then verified again — the claim that a recorded id can
never be accepted again, regardless of elapsed time and of how many
other transactions were recorded, is false. -/
theorem C2_replay_counterexample :
    ((verifyAndBroadcastTx (envC2 0) hexC2 "escrow" 100 "game1" "payer"
        ⟨⟨[], []⟩, ⟨[], []⟩⟩).1.verified = true)
    ∧ ((verifyAndBroadcastTx (envC2 0) hexC2 "escrow" 100 "game1" "payer"
        ⟨⟨[], []⟩, ⟨[], []⟩⟩).2.registry.usedTxids.contains "aa11" = true)
    ∧ ((verifyAndBroadcastTx (envC2 3600001) hexC2 "escrow" 100 "game2" "payer"
        ⟨(verifyAndBroadcastTx (envC2 0) hexC2 "escrow" 100 "game1" "payer"
            ⟨⟨[], []⟩, ⟨[], []⟩⟩).2.tracker,
         idsC2.foldl (fun r id => recordTxid 3600001 id r)
           (verifyAndBroadcastTx (envC2 0) hexC2 "escrow" 100 "game1" "payer"
             ⟨⟨[], []⟩, ⟨[], []⟩⟩).2.registry⟩).1.verified = true) := by
  decide

theorem lookup_mapDelete_self {α β : Type} [DecidableEq α] (m : List (α × β)) (k : α) :
    (mapDelete m k).lookup k = none := by
  induction m with
  | nil => simp [mapDelete]
  | cons p rest ih =>
    cases p with
    | mk a b =>
      by_cases hak : a = k
      · subst hak
        simp [mapDelete, ih]
      · have hka : ¬ k = a := fun hh => hak hh.symm
        have hbeq : (k == a) = false := by simp [hka]
        simp [mapDelete, hak, List.lookup, hbeq, ih]

theorem lookup_mapDelete_none {α β : Type} [DecidableEq α] (m : List (α × β)) (k kd : α)
    (h : m.lookup k = none) : (mapDelete m kd).lookup k = none := by
  induction m with
  | nil => simp [mapDelete]
  | cons p rest ih =>
    cases p with
    | mk a b =>
      by_cases hka : k = a
      · subst hka
        simp [List.lookup] at h
      · have hbeq : (k == a) = false := by simp [hka]
        simp only [List.lookup, hbeq] at h
        by_cases had : a = kd
        · subst had
          simp [mapDelete, ih h]
        · simp [mapDelete, had, List.lookup, hbeq, ih h]

theorem releaseAll_lookup_none (ops : List Outpoint) (t : SpentUTXOTracker) (k : String)
    (h : t.claimed.lookup k = none) : (releaseAll ops t).claimed.lookup k = none := by
  induction ops generalizing t with
  | nil => exact h
  | cons o rest ih =>
    exact ih _ (lookup_mapDelete_none _ _ _ h)

theorem releaseAll_lookup_mem (ops : List Outpoint) (t : SpentUTXOTracker) (op : Outpoint)
    (h : op ∈ ops) : (releaseAll ops t).claimed.lookup (utxoKey op.txid op.vout) = none := by
  induction ops generalizing t with
  | nil => cases h
  | cons o rest ih =>
    rcases List.mem_cons.mp h with rfl | hmem
    · exact releaseAll_lookup_none rest _ _ (lookup_mapDelete_self _ _)
    · exact ih _ hmem

/-- C3 amended: claims taken by a verifyAndBroadcastTx call are released
when the call fails at the signature-verification step or at the
broadcast step: afterwards every outpoint the call claimed is unclaimed.
(The unconditional form of the claim fails: when the input-claim loop
itself aborts — missing source reference, or an input already claimed by
a different game — the claims taken earlier in the loop are kept until
they expire, see the counterexample.) -/
theorem C3_release_on_late_failure (env : VerifyEnv) (rawTxHex expectedTo : String)
    (expectedMin : Nat) (gameId payerAddress : String) (st : WalletState)
    (tx : ParsedTx) (ops : List Outpoint) (t1 : SpentUTXOTracker)
    (hhex : isHexString rawTxHex = true)
    (hlen : 100 ≤ rawTxHex.length ∧ rawTxHex.length ≤ 200000)
    (hparse : env.parse rawTxHex = some tx)
    (hused : st.registry.usedTxids.contains tx.txid = false)
    (hpay : expectedMin ≤ paymentAmountOf env tx expectedTo)
    (hclaims : claimInputs env.now gameId tx.inputs st.tracker [] = (.ok ops, t1)) :
    (env.sigVerify tx = some false →
      (verifyAndBroadcastTx env rawTxHex expectedTo expectedMin gameId payerAddress st).1.verified = false
      ∧ ∀ op ∈ ops,
        (verifyAndBroadcastTx env rawTxHex expectedTo expectedMin gameId payerAddress st).2.tracker.claimed.lookup
          (utxoKey op.txid op.vout) = none)
    ∧ (env.sigVerify tx ≠ some false → (env.broadcast rawTxHex).success = false →
      (verifyAndBroadcastTx env rawTxHex expectedTo expectedMin gameId payerAddress st).1.verified = false
      ∧ ∀ op ∈ ops,
        (verifyAndBroadcastTx env rawTxHex expectedTo expectedMin gameId payerAddress st).2.tracker.claimed.lookup
          (utxoKey op.txid op.vout) = none) := by
  have hempty : rawTxHex.isEmpty = false := by
    cases he : rawTxHex.isEmpty
    · rfl
    · exfalso
      unfold isHexString at hhex
      rw [he] at hhex
      simp at hhex
  have hlenc : (decide (rawTxHex.length < 100) || decide (rawTxHex.length > 200000)) = false := by
    simp only [Bool.or_eq_false_iff, decide_eq_false_iff_not]
    omega
  have hpayc : ¬ paymentAmountOf env tx expectedTo < expectedMin := Nat.not_lt.mpr hpay
  constructor
  · intro hsig
    simp only [verifyAndBroadcastTx, hempty, hhex, hlenc, hparse, hused, hpayc, hclaims,
      hsig, Bool.not_true, Bool.false_eq_true, if_false, ite_true, if_true, ite_false,
      if_pos, reduceIte]
    exact ⟨trivial, fun op hop => releaseAll_lookup_mem ops t1 op hop⟩
  · intro hsig hbc
    simp only [verifyAndBroadcastTx, hempty, hhex, hlenc, hparse, hused, hpayc, hclaims,
      hsig, hbc, Bool.not_true, Bool.false_eq_true, Bool.not_false, if_false, ite_true,
      if_true, ite_false, reduceIte]
    exact ⟨trivial, fun op hop => releaseAll_lookup_mem ops t1 op hop⟩

def hexC3 : String := String.mk (List.replicate 100 'c')

def txC3 : ParsedTx := ⟨"cc11", [⟨"Lto", 500⟩], [⟨some ⟨"s3", 0⟩⟩]⟩

def envC3 : VerifyEnv :=
  { parse := fun s => if s = hexC3 then some txC3 else none,
    p2pkhLockHex := fun a => "L" ++ a,
    sigVerify := fun _ => some false,
    broadcast := fun _ => ⟨true, none, none⟩,
    now := 0 }

/-- Witness for the amended C3: a signature-verification failure releases
the claim the call had taken. -/
theorem C3_release_on_late_failure_witness :
    (verifyAndBroadcastTx envC3 hexC3 "to" 100 "g1" "p" ⟨⟨[], []⟩, ⟨[], []⟩⟩).1.verified = false
    ∧ (verifyAndBroadcastTx envC3 hexC3 "to" 100 "g1" "p"
        ⟨⟨[], []⟩, ⟨[], []⟩⟩).2.tracker.claimed.lookup "s3:0" = none := by
  have h := (C3_release_on_late_failure envC3 hexC3 "to" 100 "g1" "p" ⟨⟨[], []⟩, ⟨[], []⟩⟩
    txC3 [⟨"s3", 0⟩] ⟨[("s3:0", "g1")], [("s3:0", 600000)]⟩
    (by decide) (by decide) rfl rfl (by decide) rfl).1 rfl
  exact ⟨h.1, h.2 ⟨"s3", 0⟩ (by decide)⟩

def hexC3x : String := String.mk (List.replicate 100 'd')

def txC3x : ParsedTx :=
  ⟨"dd11", [⟨"Lto", 500⟩], [⟨some ⟨"srcA", 0⟩⟩, ⟨some ⟨"srcB", 0⟩⟩]⟩

def envC3x : VerifyEnv :=
  { parse := fun s => if s = hexC3x then some txC3x else none,
    p2pkhLockHex := fun a => "L" ++ a,
    sigVerify := fun _ => some true,
    broadcast := fun _ => ⟨true, none, none⟩,
    now := 1000 }

/-- The UTXO-claim state after another game claimed srcB:0 shortly
before. -/
def stC3x : WalletState :=
  ⟨(trackerClaim 0 "srcB" 0 "gameOther" ⟨[], []⟩).2, ⟨[], []⟩⟩

/-- C3 counterexample: a transaction spending srcA:0 and srcB:0, where
srcB:0 is already claimed by a different game, is rejected at the
input-claim step — but the claim on srcA:0 that this very call took is
not released: the UTXO-claim state visible to other games has changed,
falsifying the claim that every failure releases the claims taken so
far. -/
theorem C3_claims_retained_counterexample :
    ((verifyAndBroadcastTx envC3x hexC3x "to" 100 "gameX" "p" stC3x).1.verified = false)
    ∧ ((verifyAndBroadcastTx envC3x hexC3x "to" 100 "gameX" "p" stC3x).1.error
        = some "UTXO srcB:0 already claimed by another game")
    ∧ (stC3x.tracker.claimed.lookup "srcA:0" = none)
    ∧ ((verifyAndBroadcastTx envC3x hexC3x "to" 100 "gameX" "p" stC3x).2.tracker.claimed.lookup "srcA:0"
        = some "gameX") := by
  decide

end Flockwars